import Mathlib

/-!
Verification of the `gosu-code/claude-plugin` hook scripts.

This file gives a shallow embedding, over `List Char` and a small JSON value
type, of the Python functions in
`plugins/gosu-mcp-core/hooks/block_dangerous_tool_usages.py` and
`plugins/gosu-mcp-core/hooks/session_hook.py`, and proves properties of the
embedded definitions.  Each definition mirrors the structure of the Python
source it is named after; character classes model the ASCII behaviour of the
Python string and regex primitives involved.
-/

/-- Python `str` whitespace, restricted to ASCII: the characters stripped by
`str.strip()` and split on by `str.split()` (space, tab, newline, carriage
return, vertical tab, form feed).  This is also the ASCII part of the regex
class reached by a bare `\s` in the patterns below. -/
def isPyWs (c : Char) : Bool :=
  c == ' ' || c == '\t' || c == '\n' || c == '\r' || c == '\x0b' || c == '\x0c'

/-- The whitespace characters of Python's `shlex` module
(`shlex.whitespace = ' \t\r\n'`). -/
def isShlexWs (c : Char) : Bool :=
  c == ' ' || c == '\t' || c == '\r' || c == '\n'

/-- ASCII lowercase letter, the regex class `[a-z]`. -/
def lowAZ (c : Char) : Bool :=
  decide (97 ≤ c.toNat) && decide (c.toNat ≤ 122)

/-- Python `str.lower()` on one character, ASCII fragment: uppercase A–Z maps
to lowercase, everything else is unchanged. -/
def lowerChar (c : Char) : Char :=
  if 65 ≤ c.toNat ∧ c.toNat ≤ 90 then Char.ofNat (c.toNat + 32) else c

/-- Python `str.lower()` on a whole string (as a character list). -/
def lowerL (s : List Char) : List Char :=
  s.map lowerChar

/-- Python `str.strip()` (no argument): remove whitespace from both ends. -/
def stripPy (s : List Char) : List Char :=
  ((s.dropWhile isPyWs).reverse.dropWhile isPyWs).reverse

/-- Python `str.strip(t)` for a single strip character `t`: remove copies of
`t` from both ends. -/
def stripChar (t : Char) (s : List Char) : List Char :=
  ((s.dropWhile (· == t)).reverse.dropWhile (· == t)).reverse

/-- Python `str.startswith`: `startsWithL pre s` is true when `pre` is an
initial segment of `s`. -/
def startsWithL : List Char → List Char → Bool
  | [], _ => true
  | _ :: _, [] => false
  | p :: ps, c :: cs => p == c && startsWithL ps cs

/-- Python `str.endswith`: true when `suf` is a final segment of `s`. -/
def endsWithL (suf s : List Char) : Bool :=
  startsWithL suf.reverse s.reverse

/-- Python substring test `pat in s`. -/
def containsSub : List Char → List Char → Bool
  | pat, [] => startsWithL pat []
  | pat, s@(_ :: cs) => startsWithL pat s || containsSub pat cs

/-- Accumulator of Python `str.split()` (whitespace runs separate tokens,
empty tokens are dropped); `cur` holds the current token reversed. -/
def splitWsPyAux : List Char → List Char → List (List Char)
  | [], cur => if cur.isEmpty then [] else [cur.reverse]
  | c :: cs, cur =>
    if isPyWs c then
      if cur.isEmpty then splitWsPyAux cs [] else cur.reverse :: splitWsPyAux cs []
    else splitWsPyAux cs (c :: cur)

/-- Python `str.split()` with no argument. -/
def splitWsPy (s : List Char) : List (List Char) :=
  splitWsPyAux s []

/-- `' '.join tokens`, used to rebuild a whitespace-normalized command. -/
def joinSp : List (List Char) → List Char
  | [] => []
  | [t] => t
  | t :: ts => t ++ ' ' :: joinSp ts

/-! ## `shlex.split` (POSIX mode, `whitespace_split=True`, comments off)

The tokenizer state machine of Python's `shlex` module as configured by
`shlex.split`: single quotes are fully literal, double quotes allow `\"` and
`\\` escapes (any other backslash is kept together with the following
character), a backslash outside quotes escapes the next character, and an
unterminated quote or a trailing backslash raises `ValueError`
(modelled as `none`). -/

/-- Tokenizer state: normal scanning, backslash escape outside quotes,
inside single quotes, inside double quotes, backslash escape inside double
quotes. -/
inductive SState where
  | norm
  | esc
  | single
  | double
  | descD
deriving DecidableEq

/-- One pass of the `shlex` state machine.  `cur = some t` means a token `t`
is in progress (so closing quotes of an empty quoted string still produce an
empty token, as in `shlex`). -/
def shlexRun : List Char → SState → Option (List Char) → List (List Char) →
    Option (List (List Char))
  | [], .norm, cur, acc =>
    some (acc ++ (match cur with | some t => [t] | none => []))
  | [], _, _, _ => none
  | c :: cs, .norm, cur, acc =>
    if isShlexWs c then
      match cur with
      | some t => shlexRun cs .norm none (acc ++ [t])
      | none => shlexRun cs .norm none acc
    else if c == '\'' then shlexRun cs .single (some (cur.getD [])) acc
    else if c == '"' then shlexRun cs .double (some (cur.getD [])) acc
    else if c == '\\' then shlexRun cs .esc cur acc
    else shlexRun cs .norm (some (cur.getD [] ++ [c])) acc
  | c :: cs, .esc, cur, acc => shlexRun cs .norm (some (cur.getD [] ++ [c])) acc
  | c :: cs, .single, cur, acc =>
    if c == '\'' then shlexRun cs .norm cur acc
    else shlexRun cs .single (some (cur.getD [] ++ [c])) acc
  | c :: cs, .double, cur, acc =>
    if c == '"' then shlexRun cs .norm cur acc
    else if c == '\\' then shlexRun cs .descD cur acc
    else shlexRun cs .double (some (cur.getD [] ++ [c])) acc
  | c :: cs, .descD, cur, acc =>
    if c == '"' || c == '\\' then shlexRun cs .double (some (cur.getD [] ++ [c])) acc
    else shlexRun cs .double (some (cur.getD [] ++ ['\\', c])) acc

/-- `shlex.split command` — `none` models the `ValueError` raised on
unbalanced quotes or a dangling escape. -/
def shlexSplit (s : List Char) : Option (List (List Char)) :=
  shlexRun s .norm none []

/-! ## `classify_path` -/

/-- The three path classifications returned by `classify_path`. -/
inductive PathClass where
  | safe
  | potential
  | dangerous
deriving DecidableEq

/-- The tuple `high_risk_roots` of `classify_path`. -/
def highRiskRoots : List (List Char) :=
  ["/".data, "/bin".data, "/boot".data, "/dev".data, "/etc".data, "/lib".data,
   "/lib32".data, "/lib64".data, "/proc".data, "/root".data, "/run".data,
   "/sbin".data, "/sys".data, "/usr".data, "/var/lib".data, "/var/run".data]

/-- `any(lowered_path == root or lowered_path.startswith(f'{root}/') ...)`. -/
def anyEqOrUnder (roots : List (List Char)) (lp : List Char) : Bool :=
  roots.any fun r => lp == r || startsWithL (r ++ ['/']) lp

/-- Embedding of `classify_path` from `block_dangerous_tool_usages.py`:
a pure classification of one path string into safe / potential / dangerous,
following the source's rule order exactly. -/
def classify_path (path : List Char) : PathClass :=
  let stripped := stripPy path
  let lp := lowerL stripped
  if stripped = [] ∨ lp = [] ∨ lp = ['*'] then .dangerous
  else if lp = ['.'] then .dangerous
  else if lp = "..".data ∨ lp = "../".data then .potential
  else if startsWithL "../".data lp || startsWithL "..\\".data lp then .potential
  else if containsSub "/../".data lp || containsSub "\\..".data lp then .potential
  else if endsWithL "/..".data lp || endsWithL "\\..".data lp then .potential
  else if startsWithL "~".data lp then .dangerous
  else if startsWithL "$home".data lp || startsWithL "$\x7bhome".data lp then .dangerous
  else if lp.contains '*' then
    if stripChar '*' lp = [] then .dangerous
    else if startsWithL "/".data lp then
      if startsWithL "/tmp/".data lp then .potential
      else if startsWithL "/var/log/".data lp then .potential
      else if startsWithL "/workspace/".data lp then .potential
      else if startsWithL "/workspaces/".data lp then .potential
      else .dangerous
    else .safe
  else if startsWithL "/".data lp then
    if anyEqOrUnder ["/tmp".data, "/var/log".data] lp then .safe
    else if anyEqOrUnder highRiskRoots lp then .dangerous
    else if lp = "/workspace".data ∨ lp = "/workspaces".data then .dangerous
    else if startsWithL "/workspace/".data lp || startsWithL "/workspaces/".data lp then
      .potential
    else .safe
  else if startsWithL "./".data lp then .safe
  else if lp.contains '.' && !startsWithL ".".data lp then .safe
  else .dangerous

/-! ## `is_dangerous_rm_command` -/

/-- The flag-scanning state of `is_dangerous_rm_command`: the booleans
`has_force`, `has_recursive`, `used_long_force`, `used_long_recursive` and
the collected path arguments. -/
structure RmScan where
  has_force : Bool
  has_recursive : Bool
  used_long_force : Bool
  used_long_recursive : Bool
  paths : List (List Char)
deriving DecidableEq

/-- Initial flag-scanning state. -/
def rmScanStart : RmScan :=
  ⟨false, false, false, false, []⟩

/-- The token loop of `is_dangerous_rm_command`: `--` ends flag parsing and
turns the remaining tokens into paths; `--force(=…)` and `--recursive(=…)`
set the long-form flags; a `-xyz` cluster sets `has_force` / `has_recursive`
when it contains `f` / `r`; anything else is a path argument. -/
def scanRm : List (List Char) → RmScan → RmScan
  | [], st => st
  | tok :: rest, st =>
    let tl := lowerL tok
    if tl = "--".data then { st with paths := st.paths ++ rest }
    else if startsWithL "--".data tl then
      if tl = "--force".data ∨ startsWithL "--force=".data tl then
        scanRm rest { st with has_force := true, used_long_force := true }
      else if tl = "--recursive".data ∨ startsWithL "--recursive=".data tl then
        scanRm rest { st with has_recursive := true, used_long_recursive := true }
      else scanRm rest st
    else if startsWithL "-".data tl && decide (1 < tl.length) then
      scanRm rest
        { st with
          has_force := st.has_force || (tl.drop 1).contains 'f',
          has_recursive := st.has_recursive || (tl.drop 1).contains 'r' }
    else scanRm rest { st with paths := st.paths ++ [tok] }

/-- The per-path loop at the end of `is_dangerous_rm_command`: return `2`
at the first dangerous path, `1` at the first potential path, `0` when every
path is safe.  (The loop returns on the first non-safe path, so a potential
path hides any later dangerous one, as in the source.) -/
def pathVerdict : List (List Char) → Nat
  | [] => 0
  | p :: ps =>
    match classify_path p with
    | .dangerous => 2
    | .potential => 1
    | .safe => pathVerdict ps

/-- The verdict computed from a finished flag scan, in the source's order:
no force+recursive → 0; any long-form flag → 2; no paths → 2; otherwise the
per-path loop. -/
def rmFlagsVerdict (st : RmScan) : Nat :=
  if !(st.has_force && st.has_recursive) then 0
  else if st.used_long_force || st.used_long_recursive then 2
  else if st.paths.isEmpty then 2
  else pathVerdict st.paths

/-- Tokenization used by `is_dangerous_rm_command`: `shlex.split`, falling
back to `str.split()` when the tokenizer raises. -/
def rmTokens (command : List Char) : List (List Char) :=
  match shlexSplit command with
  | some ts => ts
  | none => splitWsPy command

/-- Embedding of `is_dangerous_rm_command`: strip, tokenize, require first
token `rm` (case-insensitively), scan flags, and produce the 0/1/2 verdict. -/
def is_dangerous_rm_command (cmd : String) : Nat :=
  if stripPy cmd.data = [] then 0
  else
    match rmTokens (stripPy cmd.data) with
    | [] => 0
    | t0 :: rest =>
      if lowerL t0 = "rm".data then rmFlagsVerdict (scanRm rest rmScanStart)
      else 0

/-- Statement-side predicate for the rm detector's early exit: after
stripping and tokenizing, the command has no tokens or its first token,
lowercased, is not `rm`. -/
def rmFirstTokenNotRm (cmd : String) : Bool :=
  match rmTokens (stripPy cmd.data) with
  | [] => true
  | t :: _ => !(lowerL t == "rm".data)

/-! ## `is_dangerous_git_command`

The git patterns use only literal characters, `\s+`, `[a-z]*`, `.*` and a
final `(?:\s|$)`, so they are modelled with a small atom language and a
backtracking matcher.  The matcher is written structurally (recursion on the
input string, with an inner recursion on the atom list) so that it reduces in
the kernel. -/

/-- One regex atom of the git patterns: a literal character, `cls*`, `cls+`
for a character class `cls`, or `(?:\s|$)`. -/
inductive GAtom where
  | ch (c : Char)
  | star (p : Char → Bool)
  | plus (p : Char → Bool)
  | wsOrEnd

/-- Matching a pattern against the empty remainder of the input: stars and
`(?:\s|$)` (via its `$` branch) may still succeed. -/
def gMatchNil : List GAtom → Bool
  | [] => true
  | .ch _ :: _ => false
  | .plus _ :: _ => false
  | .star _ :: as => gMatchNil as
  | .wsOrEnd :: as => gMatchNil as

/-- One step of the matcher at a non-empty input `x :: xs`; `rec` is the
matcher continued on `xs`.  A star either matches zero characters here
(recursing on the atom list) or consumes `x`. -/
def gMatchStep (x : Char) (rec : List GAtom → Bool) : List GAtom → Bool
  | [] => true
  | .ch c :: as => (x == c) && rec as
  | .star p :: as => gMatchStep x rec as || (p x && rec (.star p :: as))
  | .plus p :: as => p x && rec (.star p :: as)
  | .wsOrEnd :: as => isPyWs x && rec as

/-- `gMatch s atoms` — the pattern `atoms` matches a prefix of `s` (trailing
input is unconstrained, as for an `re.search` hit at this position). -/
def gMatch : List Char → List GAtom → Bool
  | [], as => gMatchNil as
  | x :: xs, as => gMatchStep x (gMatch xs) as

/-- `re.search`: try the pattern at every starting position. -/
def gSearch (atoms : List GAtom) : List Char → Bool
  | [] => gMatch [] atoms
  | s@(_ :: xs) => gMatch s atoms || gSearch atoms xs

/-- Literal characters of a pattern. -/
def glits (s : String) : List GAtom :=
  s.data.map GAtom.ch

/-- The normalization at the top of `is_dangerous_git_command`:
`' '.join(command.lower().split())`. -/
def normalizeGit (cmd : List Char) : List Char :=
  joinSp (splitWsPy (lowerL cmd))

/-- The shared `git\s+clean\s+` head of the three `git clean` patterns. -/
def gCleanPre : List GAtom :=
  glits "git" ++ [.plus isPyWs] ++ glits "clean" ++ [.plus isPyWs]

/-- The ordered pattern list of `is_dangerous_git_command`, one atom list per
source regex (note `-D` and `-d` patterns are distinct in the source even
though the input is lowercased first). -/
def gitPatterns : List (List GAtom) :=
  [ glits "git" ++ [.plus isPyWs] ++ glits "reset" ++ [.plus isPyWs] ++ glits "--hard",
    gCleanPre ++ [.ch '-', .star lowAZ, .ch 'f', .star lowAZ, .ch 'd'],
    gCleanPre ++ [.ch '-', .star lowAZ, .ch 'd', .star lowAZ, .ch 'f'],
    gCleanPre ++ [.ch '-', .ch 'f', .star lowAZ, .wsOrEnd],
    glits "git" ++ [.plus isPyWs] ++ glits "reflog" ++ [.plus isPyWs] ++ glits "expire" ++
      [.plus isPyWs] ++ glits "--expire=now" ++ [.plus isPyWs] ++ glits "--all",
    glits "git" ++ [.plus isPyWs] ++ glits "push" ++ [.plus isPyWs] ++ glits "--force",
    glits "git" ++ [.plus isPyWs] ++ glits "push" ++ [.plus isPyWs] ++ glits "-f",
    glits "git" ++ [.plus isPyWs] ++ glits "branch" ++ [.plus isPyWs] ++ glits "-d" ++
      [.plus isPyWs, .star (· != '\n')],
    glits "git" ++ [.plus isPyWs] ++ glits "branch" ++ [.plus isPyWs] ++ glits "-D" ++
      [.plus isPyWs, .star (· != '\n')],
    glits "git" ++ [.plus isPyWs] ++ glits "tag" ++ [.plus isPyWs] ++ glits "-d" ++
      [.plus isPyWs, .star (· != '\n')],
    glits "git" ++ [.plus isPyWs] ++ glits "remote" ++ [.plus isPyWs] ++ glits "remove" ++
      [.plus isPyWs, .star (· != '\n')],
    glits "git" ++ [.plus isPyWs] ++ glits "filter-branch",
    glits "git" ++ [.plus isPyWs] ++ glits "update-ref" ++ [.plus isPyWs] ++ glits "-d",
    glits "git" ++ [.plus isPyWs] ++ glits "checkout" ++ [.plus isPyWs] ++ glits "--orphan" ]

/-- Embedding of `is_dangerous_git_command`: lowercase, collapse whitespace,
and search the fixed pattern list; any hit returns `true`. -/
def is_dangerous_git_command (cmd : String) : Bool :=
  gitPatterns.any fun p => gSearch p (normalizeGit cmd.data)

/-! ## `is_env_file_access`

The `.env` patterns additionally use a single-character negative lookbehind
`(?<!\w)`, negative lookaheads, and an end anchor, so they get a slightly
richer atom language whose matcher also tracks the character just before the
current position. -/

/-- ASCII word character, the regex class `\w`. -/
def pyWord (c : Char) : Bool :=
  lowAZ c || (decide (65 ≤ c.toNat) && decide (c.toNat ≤ 90)) ||
    (decide (48 ≤ c.toNat) && decide (c.toNat ≤ 57)) || c == '_'

/-- Any character matched by regex `.` (everything but a newline). -/
def nonNl (c : Char) : Bool :=
  c != '\n'

/-- The `$` anchor of Python's `re`: end of string, or just before a single
trailing newline. -/
def endDollar (s : List Char) : Bool :=
  s.isEmpty || s == ['\n']

/-- Search for `.env` preceded only by non-newline characters — the `.*\.env`
part of the lookahead pattern `default(\..*)?\.env` (no end anchor). -/
def dotEnvSearch : List Char → Bool
  | [] => false
  | s@(c :: cs) => startsWithL ".env".data s || (nonNl c && dotEnvSearch cs)

/-- Does `default(\..*)?\.env` match starting at this position?  Used for
the negative lookahead inside the Bash `.env` patterns. -/
def startsDefEnv (s : List Char) : Bool :=
  startsWithL "default".data s &&
    (startsWithL ".env".data (s.drop 7) ||
      (startsWithL ".".data (s.drop 7) && dotEnvSearch (s.drop 8)))

/-- Atom language of the `.env` patterns: literals, classes, `cls*`, `cls+`,
`$`, lookbehind `(?<!\w)`, one-character negative lookahead, literal negative
lookahead, and the specific lookahead `(?!default(\..*)?\.env)`. -/
inductive RAtom where
  | ch (c : Char)
  | cls (p : Char → Bool)
  | star (p : Char → Bool)
  | plus (p : Char → Bool)
  | endA
  | nlb (p : Char → Bool)
  | nlaCls (p : Char → Bool)
  | nlaStr (lit : List Char)
  | nlaDefEnv

/-- `.env`-pattern matching against an empty remainder: lookaheads trivially
fail to find a character (so the negative forms succeed), `$` succeeds. -/
def eMatchNil (prev : Option Char) : List RAtom → Bool
  | [] => true
  | .ch _ :: _ => false
  | .cls _ :: _ => false
  | .star _ :: as => eMatchNil prev as
  | .plus _ :: _ => false
  | .endA :: as => eMatchNil prev as
  | .nlb p :: as =>
    (match prev with | none => true | some c => !p c) && eMatchNil prev as
  | .nlaCls _ :: as => eMatchNil prev as
  | .nlaStr lit :: as => !startsWithL lit [] && eMatchNil prev as
  | .nlaDefEnv :: as => !startsDefEnv [] && eMatchNil prev as

/-- One matcher step at input `x :: xs` with preceding character `prev`;
`rec` continues on `xs` (and is handed the new preceding character). -/
def eMatchStep (prev : Option Char) (x : Char) (xs : List Char)
    (rec : Option Char → List RAtom → Bool) : List RAtom → Bool
  | [] => true
  | .ch c :: as => (x == c) && rec (some x) as
  | .cls p :: as => p x && rec (some x) as
  | .star p :: as =>
    eMatchStep prev x xs rec as || (p x && rec (some x) (.star p :: as))
  | .plus p :: as => p x && rec (some x) (.star p :: as)
  | .endA :: _ => false
  | .nlb p :: as =>
    (match prev with | none => true | some c => !p c) && eMatchStep prev x xs rec as
  | .nlaCls p :: as => !p x && eMatchStep prev x xs rec as
  | .nlaStr lit :: as => !startsWithL lit (x :: xs) && eMatchStep prev x xs rec as
  | .nlaDefEnv :: as => !startsDefEnv (x :: xs) && eMatchStep prev x xs rec as

/-- Matcher for the `.env` atom language, tracking the preceding character. -/
def eMatch : List Char → Option Char → List RAtom → Bool
  | [], prev, as => eMatchNil prev as
  | x :: xs, prev, as => eMatchStep prev x xs (eMatch xs) as

/-- `re.search` for the `.env` atom language. -/
def eSearch (atoms : List RAtom) : Option Char → List Char → Bool
  | prev, [] => eMatch [] prev atoms
  | prev, s@(x :: xs) => eMatch s prev atoms || eSearch atoms (some x) xs

/-- Search a whole string from its start (no preceding character). -/
def envSearch (atoms : List RAtom) (s : List Char) : Bool :=
  eSearch atoms none s

/-- The shared core `(?<!\w)\.env(?!\w)(?!default(\..*)?\.env)(?!\.example)`
of all six Bash `.env` patterns. -/
def envCore : List RAtom :=
  [.nlb pyWord, .ch '.', .ch 'e', .ch 'n', .ch 'v', .nlaCls pyWord, .nlaDefEnv,
   .nlaStr ".example".data]

/-- Literal characters of an `.env` pattern. -/
def elits (s : String) : List RAtom :=
  s.data.map RAtom.ch

/-- The `env_patterns` list of `is_env_file_access` (Bash branch), in source
order: the bare core, then `cat`/`echo >`/`touch`/`cp`/`mv` prefixed
variants. -/
def envPatterns : List (List RAtom) :=
  [ envCore,
    elits "cat" ++ [.plus isPyWs, .star nonNl] ++ envCore,
    elits "echo" ++ [.plus isPyWs, .star nonNl, .ch '>', .star isPyWs] ++ envCore,
    elits "touch" ++ [.plus isPyWs, .star nonNl] ++ envCore,
    elits "cp" ++ [.plus isPyWs, .star nonNl] ++ envCore,
    elits "mv" ++ [.plus isPyWs, .star nonNl] ++ envCore ]

/-- Search for `\.env$` preceded only by non-newline characters, the
`.*\.env$` tail used by `defaultEnvEndAt`. -/
def dotEnvAtEnd : List Char → Bool
  | [] => false
  | s@(c :: cs) =>
    (startsWithL ".env".data s && endDollar (s.drop 4)) || (nonNl c && dotEnvAtEnd cs)

/-- Does `default(\..*)?\.env$` match starting at this position?  (The
file-path variant of the default-env pattern, with the end anchor.) -/
def defaultEnvEndAt (s : List Char) : Bool :=
  startsWithL "default".data s &&
    ((startsWithL ".env".data (s.drop 7) && endDollar (s.drop 11)) ||
      (startsWithL ".".data (s.drop 7) && dotEnvAtEnd (s.drop 8)))

/-- `re.search(r'default(\..*)?\.env$', file_path)`. -/
def searchDefaultEnvEnd : List Char → Bool
  | [] => defaultEnvEndAt []
  | s@(_ :: cs) => defaultEnvEndAt s || searchDefaultEnvEnd cs

/-- The fields of `tool_input` consulted by the hook: `file_path` and
`command`, each defaulting to the empty string when absent (`dict.get`). -/
structure ToolInput where
  file_path : String
  command : String
deriving DecidableEq

/-- Embedding of `is_env_file_access`: for file-path tools, allow
`*.env.example`, flag paths containing `.env` unless they match
`default(\..*)?\.env$`; for `Bash`, search the command against
`env_patterns`; every other tool returns `false`. -/
def is_env_file_access (tool_name : String) (tool_input : ToolInput) : Bool :=
  if tool_name ∈ ["Read", "Edit", "MultiEdit", "Write", "Bash"] then
    if tool_name ∈ ["Read", "Edit", "MultiEdit", "Write"] then
      if endsWithL ".env.example".data tool_input.file_path.data then false
      else if containsSub ".env".data tool_input.file_path.data &&
          !searchDefaultEnvEnd tool_input.file_path.data then true
      else false
    else if tool_name = "Bash" then
      envPatterns.any fun p => envSearch p tool_input.command.data
    else false
  else false

/-- Tail of `specDefaultEnvAt`: `\.*\.env$` — literal dots, then `.env` at
the end of the string. -/
def specDots : List Char → Bool
  | [] => false
  | s@(c :: cs) =>
    (startsWithL ".env".data s && endDollar (s.drop 4)) || (c == '.' && specDots cs)

/-- Modelled from the spec: the pattern `default(\.*)?\.env$` exactly as the
spec and claim write it — `default`, then any number of literal dots, then
`.env` at the end — matched at one position.  (The source instead uses
`default(\..*)?\.env$`; this definition exists to compare the claim's
wording with the code.) -/
def specDefaultEnvAt (s : List Char) : Bool :=
  startsWithL "default".data s && specDots (s.drop 7)

/-- Modelled from the spec: `re.search` of the claim's pattern
`default(\.*)?\.env$`. -/
def specSearchDefaultEnv : List Char → Bool
  | [] => specDefaultEnvAt []
  | s@(_ :: cs) => specDefaultEnvAt s || specSearchDefaultEnv cs

/-! ## The permission-hook decision (`main` of
`block_dangerous_tool_usages.py`) -/

/-- The decision emitted by the permission hook for one tool invocation:
an `ask` or `deny` with its reason, an explicit `allow` (auto-allow mode), or
a silent pass-through (exit 0 with no output). -/
inductive HookDecision where
  | ask (reason : String)
  | deny (reason : String)
  | allow
  | passThrough
deriving DecidableEq

/-- The `.env` confirmation reason string emitted by `main`. -/
def envAskReason : String :=
  "This tool is attempting to access .env files which may contain sensitive data. Do you want to allow this access?"

/-- Embedding of the decision logic of `main` (after input parsing and the
`tool_input` type check): the `.env` check runs first and yields `ask`;
then, for `Bash`, the rm verdict (2 → deny, 1 → ask) and the git check
(deny); otherwise `allow` in auto-allow mode or a silent pass-through. -/
def blockDecision (tool_name : String) (tool_input : ToolInput)
    (autoAllow : Bool) : HookDecision :=
  if is_env_file_access tool_name tool_input then .ask envAskReason
  else if tool_name = "Bash" then
    if is_dangerous_rm_command tool_input.command = 2 then
      .deny "Dangerous rm command detected and prevented."
    else if is_dangerous_rm_command tool_input.command = 1 then
      .ask "Potentially Dangerous rm command detected. Do you want to run this command?"
    else if is_dangerous_git_command tool_input.command then
      .deny "Dangerous git command detected and prevented."
    else if autoAllow then .allow
    else .passThrough
  else if autoAllow then .allow
  else .passThrough

/-! ## JSON values (`session_hook.py`)

JSON values parsed by `json.loads`, encoded with mutually inductive list
types so that the serializer below is structurally recursive (and therefore
reduces in the kernel).  Numbers are modelled as integers — no claim involves
JSON floats.  Objects model Python dicts from `json.loads`, whose keys are
unique. -/

mutual
inductive JVal where
  | null
  | bool (b : Bool)
  | num (n : Int)
  | str (s : String)
  | arr (xs : JList)
  | obj (fs : JFields)
inductive JList where
  | nil
  | cons (v : JVal) (tl : JList)
inductive JFields where
  | nil
  | cons (k : String) (v : JVal) (tl : JFields)
end

/-- Build an object field list from a Lean list (statement convenience). -/
def JFields.ofList : List (String × JVal) → JFields
  | [] => .nil
  | (k, v) :: rest => .cons k v (JFields.ofList rest)

/-- Build a JSON array from a Lean list (statement convenience). -/
def JList.ofList : List JVal → JList
  | [] => .nil
  | v :: rest => .cons v (JList.ofList rest)

/-- A JSON object from a key/value list. -/
def jobj (l : List (String × JVal)) : JVal :=
  .obj (JFields.ofList l)

/-- A JSON array from a value list. -/
def jarr (l : List JVal) : JVal :=
  .arr (JList.ofList l)

/-- `dict.get(key)`: first binding for `key`, if any. -/
def JFields.lookup : JFields → String → Option JVal
  | .nil, _ => none
  | .cons k v rest, key => if k = key then some v else rest.lookup key

/-- `value.get(key, default)` on a JSON value: object lookup with a default,
and the default for non-objects (only ever applied to objects in the code). -/
def jGet (v : JVal) (key : String) (d : JVal) : JVal :=
  match v with
  | .obj fs => (fs.lookup key).getD d
  | _ => d

/-- Python truthiness of a JSON-parsed value: `None`, `False`, `0`, `""`,
`[]` and an empty dict are falsy. -/
def pyTruthy : JVal → Bool
  | .null => false
  | .bool b => b
  | .num n => n != 0
  | .str s => !s.isEmpty
  | .arr .nil => false
  | .arr _ => true
  | .obj .nil => false
  | .obj _ => true

/-! ### JSON serialization (`json.dumps` with default separators) -/

/-- Escaping of `json.dumps` for the characters exercised here (quote,
backslash, newline, tab, carriage return); other control characters'
`\uXXXX` escapes and the `ensure_ascii` transformation of non-ASCII
characters are not modelled (no claim serializes them). -/
def jsonEscape : List Char → List Char
  | [] => []
  | c :: cs =>
    (if c == '"' then ['\\', '"']
     else if c == '\\' then ['\\', '\\']
     else if c == '\n' then ['\\', 'n']
     else if c == '\t' then ['\\', 't']
     else if c == '\r' then ['\\', 'r']
     else [c]) ++ jsonEscape cs

mutual
/-- `json.dumps` with the default separators `', '` and `': '`. -/
def dumpsV : JVal → List Char
  | .null => "null".data
  | .bool true => "true".data
  | .bool false => "false".data
  | .num n => (toString n).data
  | .str s => '"' :: jsonEscape s.data ++ ['"']
  | .arr xs => '[' :: dumpsA xs ++ [']']
  | .obj fs => '\x7b' :: dumpsO fs ++ ['\x7d']
/-- Array elements joined by `', '`. -/
def dumpsA : JList → List Char
  | .nil => []
  | .cons v .nil => dumpsV v
  | .cons v tl => dumpsV v ++ ", ".data ++ dumpsA tl
/-- Object entries `"key": value` joined by `', '`. -/
def dumpsO : JFields → List Char
  | .nil => []
  | .cons k v .nil => '"' :: jsonEscape k.data ++ '"' :: ':' :: ' ' :: dumpsV v
  | .cons k v tl =>
    ('"' :: jsonEscape k.data ++ '"' :: ':' :: ' ' :: dumpsV v) ++ ", ".data ++ dumpsO tl
end

/-- `json.dumps` as a string. -/
def jdumps (v : JVal) : String :=
  String.mk (dumpsV v)

/-! ### Session-id validation -/

/-- Case-insensitive hexadecimal digit, the class `[0-9a-f]` under
`re.IGNORECASE`. -/
def isHexCI (c : Char) : Bool :=
  (decide (48 ≤ c.toNat) && decide (c.toNat ≤ 57)) ||
    (decide (97 ≤ c.toNat) && decide (c.toNat ≤ 102)) ||
    (decide (65 ≤ c.toNat) && decide (c.toNat ≤ 70))

/-- Consume exactly `n` characters satisfying `p`, returning the rest. -/
def takeRun (p : Char → Bool) : Nat → List Char → Option (List Char)
  | 0, s => some s
  | _ + 1, [] => none
  | n + 1, c :: cs => if p c then takeRun p n cs else none

/-- `bool(UUID_PATTERN.match(s))` for the pattern
`^[0-9a-f]{8}-[0-9a-f]{4}-[0-9a-f]{4}-[0-9a-f]{4}-[0-9a-f]{12}$` with
`re.IGNORECASE`.  Python's `$` also matches just before a single trailing
newline, so a UUID followed by one `'\n'` is accepted — see `endDollar`. -/
def uuidMatch (s : List Char) : Bool :=
  match takeRun isHexCI 8 s with
  | some ('-' :: t1) =>
    match takeRun isHexCI 4 t1 with
    | some ('-' :: t2) =>
      match takeRun isHexCI 4 t2 with
      | some ('-' :: t3) =>
        match takeRun isHexCI 4 t3 with
        | some ('-' :: t4) =>
          match takeRun isHexCI 12 t4 with
          | some rest => endDollar rest
          | none => false
        | _ => false
      | _ => false
    | _ => false
  | _ => false

/-- Embedding of `validate_session_id`: non-empty string matching
`UUID_PATTERN`. -/
def validate_session_id (s : String) : Bool :=
  !s.isEmpty && uuidMatch s.data

/-- `validate_session_id` applied to an arbitrary JSON field value: the
`isinstance(session_id, str)` guard makes every non-string invalid. -/
def validate_session_id_j : JVal → Bool
  | .str s => validate_session_id s
  | _ => false

/-- Modelled from the spec: the claim's strict "8-4-4-4-12 hexadecimal form"
for a session id — exactly five hyphen-separated hexadecimal groups and
nothing else (in particular, no trailing newline). -/
def specUuidForm (s : List Char) : Bool :=
  match takeRun isHexCI 8 s with
  | some ('-' :: t1) =>
    match takeRun isHexCI 4 t1 with
    | some ('-' :: t2) =>
      match takeRun isHexCI 4 t2 with
      | some ('-' :: t3) =>
        match takeRun isHexCI 4 t3 with
        | some ('-' :: t4) =>
          match takeRun isHexCI 12 t4 with
          | some rest => rest.isEmpty
          | none => false
        | _ => false
      | _ => false
    | _ => false
  | _ => false

/-! ### Hook selection (`get_hook_for_event` and friends) -/

/-- `get_matcher_field_for_event`: which input field a matcher filters on. -/
def get_matcher_field_for_event (event_name : String) : Option String :=
  if event_name = "PreCompact" then some "trigger"
  else if event_name = "SessionStart" then some "source"
  else none

/-- Python `str()` of a JSON-parsed value, used on the matcher's input field.
Scalars are exact; for lists and dicts Python prints its own repr (with
single quotes), which is approximated here by the JSON serialization — no
claim matches against a composite field value. -/
def pyStr : JVal → String
  | .str s => s
  | .num n => toString n
  | .bool true => "True"
  | .bool false => "False"
  | .null => "None"
  | v => jdumps v

/-- Lowercase a Lean string (Python `str.lower()`, ASCII fragment). -/
def lowerS (s : String) : String :=
  String.mk (lowerL s.data)

/-- Embedding of `matches_hook_entry`: a falsy `matcher` matches everything;
events without a matcher field match everything; otherwise compare the
matcher against the input field case-insensitively.  (A truthy non-string
`matcher` on a matcher-aware event makes CPython raise `AttributeError`,
which the outer handler turns into exit 1; that branch is modelled as a
plain `true` and is not exercised by any claim.) -/
def matches_hook_entry (entry : JFields) (event : Option String)
    (input : JVal) : Bool :=
  let m := (entry.lookup "matcher").getD .null
  if !pyTruthy m then true
  else
    match (match event with | some e => get_matcher_field_for_event e | none => none) with
    | none => true
    | some fld =>
      match m with
      | .str ms => lowerS ms == lowerS (pyStr (jGet input fld (.str "")))
      | _ => true

/-- The inner loop of `get_hook_for_event`: the first dict in `hook_list`
whose `type` is `"command"` with a truthy `command`, or whose `type` is
`"json"`. -/
def findSupportedHook : JList → Option JFields
  | .nil => none
  | .cons h hs =>
    match h with
    | .obj hook =>
      match (hook.lookup "type").getD .null with
      | .str s =>
        if s = "command" && pyTruthy ((hook.lookup "command").getD .null) then some hook
        else if s = "json" then some hook
        else findSupportedHook hs
      | _ => findSupportedHook hs
    | _ => findSupportedHook hs

/-- The outer loop of `get_hook_for_event`: skip non-dict entries and entries
whose matcher does not match; in a matching entry, search its `hooks` list. -/
def findHookInEntries : JList → Option String → JVal → Option JFields
  | .nil, _, _ => none
  | .cons e es, ev, inp =>
    match e with
    | .obj entry =>
      if !matches_hook_entry entry ev inp then findHookInEntries es ev inp
      else
        match (entry.lookup "hooks").getD (jarr []) with
        | .arr hl =>
          match findSupportedHook hl with
          | some h => some h
          | none => findHookInEntries es ev inp
        | _ => findHookInEntries es ev inp
    | _ => findHookInEntries es ev inp

/-- Embedding of `get_hook_for_event`: `hooks` must be a dict and the event's
entry a list (else `None`); then scan the entries.  The event name is `none`
when `hook_event_name` was not a string (a non-string key misses every JSON
object key). -/
def get_hook_for_event (cfg : JVal) (event : Option String) (input : JVal) :
    Option JFields :=
  match jGet cfg "hooks" (jobj []) with
  | .obj hs =>
    match (match event with | some e => (hs.lookup e).getD (jarr []) | none => jarr []) with
    | .arr entries => findHookInEntries entries event input
    | _ => none
  | _ => none

/-! ### The `json` hook and `main` -/

/-- Digit-string accumulator for Python `int(str)`. -/
def decDigitsAux : List Char → Nat → Option Nat
  | [], acc => some acc
  | c :: cs, acc =>
    if 48 ≤ c.toNat ∧ c.toNat ≤ 57 then decDigitsAux cs (acc * 10 + (c.toNat - 48))
    else none

/-- Python `int(s)` for a string: optional surrounding whitespace, optional
sign, at least one decimal digit; `none` models `ValueError`.  (Underscore
digit separators are not modelled.) -/
def pyParseInt (s : List Char) : Option Int :=
  match stripPy s with
  | [] => none
  | '-' :: [] => none
  | '-' :: rest => (decDigitsAux rest 0).map fun n => -(n : Int)
  | '+' :: [] => none
  | '+' :: rest => (decDigitsAux rest 0).map fun n => (n : Int)
  | cs => (decDigitsAux cs 0).map fun n => (n : Int)

/-- The exit-code coercion of `execute_json_hook`: an int stays (Python bools
are ints — `True` exits with status 1); `int(str)` parses or the
`ValueError` handler falls back to 0; any other type's `TypeError` also
falls back to 0. -/
def pyToInt : JVal → Int
  | .num n => n
  | .bool b => if b then 1 else 0
  | .str s => (pyParseInt s.data).getD 0
  | _ => 0

/-- Embedding of `execute_json_hook`: serialize the configured `json` object
(default an empty object) and return the coerced `exitcode` (default 0); a
non-object `json` is an error with exit code 1.  Result is
`(stdout, stderr, exit code)`. -/
def execute_json_hook (hook : JFields) : String × String × Int :=
  match (hook.lookup "json").getD (jobj []) with
  | .obj o => (jdumps (.obj o), "", pyToInt ((hook.lookup "exitcode").getD (.num 0)))
  | _ => ("", "Invalid 'json' field: must be an object", 1)

/-- The dispatcher's view of the session-hooks file: absent, unreadable /
unparsable (`load_hooks_config` raised), or loaded.  `main` only touches it
after the session id validates. -/
inductive FileLookup where
  | noFile
  | loadError (msg : String)
  | loaded (cfg : JVal)

/-- Observable outcome of one dispatcher run: bytes printed to stdout and
stderr, and the process exit code. -/
structure HookOutcome where
  out : String
  err : String
  code : Int
deriving DecidableEq

/-- The command branch of `main`: `command` and validated `timeout` are read
from the hook and handed to the command runner `rc` (which models
`execute_hook_command`; the original stdin text that the runner pipes to the
command is implicit in `rc`).  A non-numeric, non-positive or over-limit
timeout falls back to the 15-second default. -/
def runCommandHook (hook : JFields) (rc : String → Int → String × String × Int) :
    String × String × Int :=
  let command := match (hook.lookup "command").getD (.str "") with
    | .str c => c
    | _ => ""
  let t : Int := match (hook.lookup "timeout").getD (.num 15) with
    | .num t => if t ≤ 0 ∨ 60 < t then 15 else t
    | _ => 15
  rc command t

/-- Embedding of `main` from `session_hook.py`, from the parsed stdin JSON
onwards: non-dict input or an invalid session id prints an empty JSON object
and exits 0 before any file access; then the file lookup result `fl` decides
between the no-file `\x7b\x7d` output, a load error on stderr with exit 1,
and hook dispatch; a found `json` hook prints its serialization (no trailing
newline) and exits with its code, a `command` hook defers to `rc`. -/
def mainOutcome (input : JVal) (fl : FileLookup)
    (rc : String → Int → String × String × Int) : HookOutcome :=
  match input with
  | .obj _ =>
    if !validate_session_id_j (jGet input "session_id" (.str "")) then
      ⟨"\x7b\x7d\n", "", 0⟩
    else
      match fl with
      | .noFile => ⟨"\x7b\x7d\n", "", 0⟩
      | .loadError msg =>
        ⟨"", "Error loading session hooks file: " ++ msg ++ "\n", 1⟩
      | .loaded cfg =>
        let ev : Option String :=
          match jGet input "hook_event_name" (.str "") with
          | .str s => some s
          | _ => none
        match get_hook_for_event cfg ev input with
        | none => ⟨"\x7b\x7d\n", "", 0⟩
        | some hook =>
          let r :=
            match (hook.lookup "type").getD (.str "command") with
            | .str s => if s = "json" then execute_json_hook hook else runCommandHook hook rc
            | _ => runCommandHook hook rc
          ⟨r.1, r.2.1, r.2.2⟩
  | _ => ⟨"\x7b\x7d\n", "", 0⟩

/-! ### Concrete dispatcher scenarios used by the theorems -/

/-- A command runner that runs nothing (the claims below never reach the
command branch). -/
def noRun : String → Int → String × String × Int :=
  fun _ _ => ("", "", 0)

/-- Input for the `json`-hook round trip: a valid session id and a
`SessionStart` event. -/
def c9Input : JVal :=
  jobj [("session_id", .str "0f0e0d0c-1a2b-3c4d-5e6f-708090a0b0c0"),
        ("hook_event_name", .str "SessionStart"), ("source", .str "startup")]

/-- Hooks configuration holding the `json` hook
`\x7b"json": \x7b"a": 1\x7d, "exitcode": 3\x7d` for `SessionStart`. -/
def c9Cfg : JVal :=
  jobj [("hooks", jobj [("SessionStart", jarr [jobj [("hooks", jarr [jobj
    [("type", .str "json"), ("json", jobj [("a", .num 1)]),
     ("exitcode", .num 3)]])]])])]

/-- A session id in valid 8-4-4-4-12 form followed by one trailing newline:
rejected by the claim's strict form, accepted by `UUID_PATTERN` because
Python's `$` matches before a trailing newline. -/
def c8Sid : String :=
  "0f0e0d0c-1a2b-3c4d-5e6f-708090a0b0c0\n"

/-- Dispatcher input carrying the newline-suffixed session id. -/
def c8Input : JVal :=
  jobj [("session_id", .str c8Sid), ("hook_event_name", .str "SessionStart")]

/-- A hooks configuration with a `SessionStart` `json` hook, standing for a
session-hooks file found under the newline-suffixed id. -/
def c8Cfg : JVal :=
  jobj [("hooks", jobj [("SessionStart", jarr [jobj [("hooks", jarr [jobj
    [("type", .str "json"), ("json", jobj [("a", .num 1)])]])]])])]

/-- The command string `git clean -<cluster>` built from a flag cluster. -/
def cleanCmd (cl : List Char) : String :=
  String.mk ("git clean -".data ++ cl)

/-! ## Helper lemmas -/

theorem lowerChar_low {c : Char} (h : lowAZ c = true) : lowerChar c = c := by
  unfold lowAZ at h
  rw [Bool.and_eq_true, decide_eq_true_eq, decide_eq_true_eq] at h
  unfold lowerChar
  rw [if_neg (by omega)]

theorem map_lower_low : ∀ cl : List Char, (∀ c ∈ cl, lowAZ c = true) →
    lowerL cl = cl
  | [], _ => rfl
  | c :: cs, h => by
    show lowerChar c :: lowerL cs = c :: cs
    rw [lowerChar_low (h c (List.mem_cons_self c cs)),
      map_lower_low cs fun x hx => h x (List.mem_cons_of_mem c hx)]

theorem low_not_ws {c : Char} (h : lowAZ c = true) : isPyWs c = false := by
  unfold lowAZ at h
  rw [Bool.and_eq_true, decide_eq_true_eq, decide_eq_true_eq] at h
  have h1 : c ≠ ' ' := by intro he; subst he; exact absurd h (by decide)
  have h2 : c ≠ '\t' := by intro he; subst he; exact absurd h (by decide)
  have h3 : c ≠ '\n' := by intro he; subst he; exact absurd h (by decide)
  have h4 : c ≠ '\r' := by intro he; subst he; exact absurd h (by decide)
  have h5 : c ≠ '\x0b' := by intro he; subst he; exact absurd h (by decide)
  have h6 : c ≠ '\x0c' := by intro he; subst he; exact absurd h (by decide)
  unfold isPyWs
  simp [h1, h2, h3, h4, h5, h6]

theorem splitWsPyAux_run : ∀ cl cur : List Char, (∀ c ∈ cl, isPyWs c = false) →
    cur.isEmpty = false → splitWsPyAux cl cur = [cur.reverse ++ cl]
  | [], cur, _, hcur => by
    unfold splitWsPyAux
    rw [hcur]
    simp
  | c :: cs, cur, h, hcur => by
    unfold splitWsPyAux
    rw [h c (List.mem_cons_self c cs)]
    simp only [Bool.false_eq_true, if_false]
    rw [splitWsPyAux_run cs (c :: cur) (fun x hx => h x (List.mem_cons_of_mem c hx)) rfl]
    simp

theorem splitWs_gitclean (rest : List Char) :
    splitWsPyAux ("git clean -".data ++ rest) [] =
      "git".data :: "clean".data :: splitWsPyAux rest ['-'] := rfl

theorem norm_clean (cl : List Char) (h : ∀ c ∈ cl, lowAZ c = true) :
    normalizeGit ("git clean -".data ++ cl) = "git clean -".data ++ cl := by
  have hmap : lowerL ("git clean -".data ++ cl) = "git clean -".data ++ cl := by
    show List.map lowerChar ("git clean -".data ++ cl) = _
    rw [List.map_append,
      show List.map lowerChar "git clean -".data = "git clean -".data by decide,
      show List.map lowerChar cl = cl from map_lower_low cl h]
  unfold normalizeGit splitWsPy
  rw [hmap, splitWs_gitclean,
    splitWsPyAux_run cl ['-'] (fun c hc => low_not_ws (h c hc)) rfl]
  rfl

theorem gMatch_nil_atoms : ∀ s : List Char, gMatch s [] = true
  | [] => rfl
  | _ :: _ => rfl

theorem gMatch_lits : ∀ (w s : List Char) (as : List GAtom),
    gMatch (w ++ s) (w.map GAtom.ch ++ as) = gMatch s as
  | [], _, _ => rfl
  | c :: w, s, as => by
    show ((c == c) && gMatch (w ++ s) (w.map GAtom.ch ++ as)) = gMatch s as
    rw [beq_self_eq_true, Bool.true_and, gMatch_lits w s as]

theorem gMatch_ch_cons (x c : Char) (xs : List Char) (as : List GAtom) :
    gMatch (x :: xs) (.ch c :: as) = ((x == c) && gMatch xs as) := rfl

theorem gMatch_plus_cons (p : Char → Bool) (x : Char) (xs : List Char)
    (as : List GAtom) :
    gMatch (x :: xs) (.plus p :: as) = (p x && gMatch xs (.star p :: as)) := rfl

theorem gMatch_star_cons_neg {p : Char → Bool} {x : Char} (h : p x = false)
    (xs : List Char) (as : List GAtom) :
    gMatch (x :: xs) (.star p :: as) = gMatch (x :: xs) as := by
  show (gMatchStep x (gMatch xs) as || (p x && gMatch xs (.star p :: as))) = _
  rw [h, Bool.false_and, Bool.or_false]
  rfl

theorem gMatch_star_zero {s : List Char} {as : List GAtom} {p : Char → Bool}
    (h : gMatch s as = true) : gMatch s (.star p :: as) = true := by
  cases s with
  | nil => exact h
  | cons x xs =>
    show (gMatchStep x (gMatch xs) as || (p x && gMatch xs (.star p :: as))) = true
    rw [show gMatchStep x (gMatch xs) as = gMatch (x :: xs) as from rfl, h, Bool.true_or]

theorem gMatch_star_run : ∀ (run : List Char) {s : List Char} {p : Char → Bool}
    {as : List GAtom}, (∀ c ∈ run, p c = true) → gMatch s as = true →
    gMatch (run ++ s) (.star p :: as) = true
  | [], _, _, _, _, h => gMatch_star_zero h
  | c :: run, s, p, as, hrun, h => by
    show (gMatchStep c (gMatch (run ++ s)) as || (p c && gMatch (run ++ s) (.star p :: as))) = true
    rw [hrun c (List.mem_cons_self c run), Bool.true_and,
      gMatch_star_run run (fun x hx => hrun x (List.mem_cons_of_mem c hx)) h, Bool.or_true]

theorem gSearch_head {atoms : List GAtom} {s : List Char}
    (h : gMatch s atoms = true) : gSearch atoms s = true := by
  cases s with
  | nil => exact h
  | cons x xs =>
    show (gMatch (x :: xs) atoms || gSearch atoms xs) = true
    rw [h, Bool.true_or]

theorem gMatch_cleanPre (tail : List GAtom) (y : List Char) :
    gMatch ("git clean -".data ++ y) (gCleanPre ++ tail) = gMatch ('-' :: y) tail := by
  show gMatch ("git".data ++ (' ' :: ("clean".data ++ (' ' :: ('-' :: y)))))
      ("git".data.map GAtom.ch ++ (.plus isPyWs ::
        ("clean".data.map GAtom.ch ++ (.plus isPyWs :: tail)))) = gMatch ('-' :: y) tail
  rw [gMatch_lits]
  rw [gMatch_plus_cons, show isPyWs ' ' = true from rfl, Bool.true_and]
  rw [show ("clean".data ++ (' ' :: ('-' :: y))) = 'c' :: ("lean".data ++ (' ' :: ('-' :: y)))
      from rfl,
    gMatch_star_cons_neg (show isPyWs 'c' = false from rfl),
    show ('c' :: ("lean".data ++ (' ' :: ('-' :: y)))) = "clean".data ++ (' ' :: ('-' :: y))
      from rfl]
  rw [gMatch_lits]
  rw [gMatch_plus_cons, show isPyWs ' ' = true from rfl, Bool.true_and]
  exact gMatch_star_cons_neg (show isPyWs '-' = false from rfl) y tail

theorem mem_split {α : Type} (a : α) : ∀ l : List α, a ∈ l →
    ∃ p q, l = p ++ a :: q
  | x :: xs, h => by
    rcases List.mem_cons.mp h with rfl | h'
    · exact ⟨[], xs, rfl⟩
    · obtain ⟨p, q, rfl⟩ := mem_split a xs h'
      exact ⟨x :: p, q, rfl⟩

theorem mem_split_two {α : Type} [DecidableEq α] (a b : α) :
    ∀ l : List α, a ∈ l → b ∈ l → a ≠ b →
    (∃ p q r, l = p ++ (a :: (q ++ (b :: r)))) ∨
      (∃ p q r, l = p ++ (b :: (q ++ (a :: r))))
  | x :: xs, ha, hb, hab => by
    by_cases hx : x = a
    · subst hx
      have hb' : b ∈ xs := by
        rcases List.mem_cons.mp hb with rfl | h'
        · exact absurd rfl hab.symm
        · exact h'
      obtain ⟨p, q, rfl⟩ := mem_split b xs hb'
      exact Or.inl ⟨[], p, q, rfl⟩
    · by_cases hxb : x = b
      · subst hxb
        have ha' : a ∈ xs := by
          rcases List.mem_cons.mp ha with rfl | h'
          · exact absurd rfl hx
          · exact h'
        obtain ⟨p, q, rfl⟩ := mem_split a xs ha'
        exact Or.inr ⟨[], p, q, rfl⟩
      · have ha' : a ∈ xs := by
          rcases List.mem_cons.mp ha with rfl | h'
          · exact absurd rfl hx
          · exact h'
        have hb' : b ∈ xs := by
          rcases List.mem_cons.mp hb with rfl | h'
          · exact absurd rfl hxb
          · exact h'
        rcases mem_split_two a b xs ha' hb' hab with ⟨p, q, r, rfl⟩ | ⟨p, q, r, rfl⟩
        · exact Or.inl ⟨x :: p, q, r, rfl⟩
        · exact Or.inr ⟨x :: p, q, r, rfl⟩

theorem cleanCmd_data (cl : List Char) :
    (cleanCmd cl).data = "git clean -".data ++ cl := rfl

theorem git_any_of (cmd : String) (p : List GAtom) (hp : p ∈ gitPatterns)
    (h : gSearch p (normalizeGit cmd.data) = true) :
    is_dangerous_git_command cmd = true := by
  unfold is_dangerous_git_command
  exact List.any_eq_true.mpr ⟨p, hp, h⟩

theorem gitPattern_fd_mem :
    (gCleanPre ++ [GAtom.ch '-', .star lowAZ, .ch 'f', .star lowAZ, .ch 'd']) ∈
      gitPatterns :=
  List.mem_cons_of_mem _ (List.mem_cons_self _ _)

theorem gitPattern_df_mem :
    (gCleanPre ++ [GAtom.ch '-', .star lowAZ, .ch 'd', .star lowAZ, .ch 'f']) ∈
      gitPatterns :=
  List.mem_cons_of_mem _ (List.mem_cons_of_mem _ (List.mem_cons_self _ _))

theorem gitPattern_f_mem :
    (gCleanPre ++ [GAtom.ch '-', .ch 'f', .star lowAZ, .wsOrEnd]) ∈ gitPatterns :=
  List.mem_cons_of_mem _ (List.mem_cons_of_mem _ (List.mem_cons_of_mem _
    (List.mem_cons_self _ _)))

/-! ## Claim theorems -/

/-- Claim C4, counterexample: the flag cluster `xf` contains the character
`f`, yet `is_dangerous_git_command "git clean -xf"` is `false` — the third
`git clean` pattern requires the cluster to begin with `f`, and the other two
require a `d`, so an `f` that is neither first nor paired with `d` does not
match. -/
theorem c4_git_clean_counterexample :
    'f' ∈ "xf".data ∧ is_dangerous_git_command "git clean -xf" = false :=
  ⟨by decide, by decide⟩

/-- Claim C4 (amended): for every `git clean` command whose leading flag
cluster consists of lowercase letters, the git detector returns true when the
cluster contains both `f` and `d` (in either order) or begins with `f`
(covering `-f`, `-fd`, `-df`, `-fx`, `-xdf`, …); `-fX` is also detected via
lowercasing; the dry-run `git clean -n` never matches because matching
requires the literal `f` character in the flag cluster. -/
theorem c4_git_clean_clusters :
    (∀ cl : List Char, (∀ c ∈ cl, lowAZ c = true) →
        (('f' ∈ cl ∧ 'd' ∈ cl) ∨ ∃ cs, cl = 'f' :: cs) →
        is_dangerous_git_command (cleanCmd cl) = true) ∧
    is_dangerous_git_command "git clean -n" = false ∧
    is_dangerous_git_command "git clean -fX" = true := by
  refine ⟨?_, by decide, by decide⟩
  intro cl hlow hcase
  rcases hcase with ⟨hf, hd⟩ | ⟨cs, rfl⟩
  · rcases mem_split_two 'f' 'd' cl hf hd (by decide) with ⟨a, b, r, rfl⟩ | ⟨a, b, r, rfl⟩
    · apply git_any_of _ _ gitPattern_fd_mem
      rw [cleanCmd_data, norm_clean _ hlow]
      apply gSearch_head
      rw [gMatch_cleanPre]
      rw [gMatch_ch_cons, show (('-' : Char) == '-') = true from rfl, Bool.true_and]
      apply gMatch_star_run a (fun c hc => hlow c (by simp [hc]))
      rw [gMatch_ch_cons, show (('f' : Char) == 'f') = true from rfl, Bool.true_and]
      apply gMatch_star_run b (fun c hc => hlow c (by simp [hc]))
      rw [gMatch_ch_cons, show (('d' : Char) == 'd') = true from rfl, Bool.true_and]
      exact gMatch_nil_atoms r
    · apply git_any_of _ _ gitPattern_df_mem
      rw [cleanCmd_data, norm_clean _ hlow]
      apply gSearch_head
      rw [gMatch_cleanPre]
      rw [gMatch_ch_cons, show (('-' : Char) == '-') = true from rfl, Bool.true_and]
      apply gMatch_star_run a (fun c hc => hlow c (by simp [hc]))
      rw [gMatch_ch_cons, show (('d' : Char) == 'd') = true from rfl, Bool.true_and]
      apply gMatch_star_run b (fun c hc => hlow c (by simp [hc]))
      rw [gMatch_ch_cons, show (('f' : Char) == 'f') = true from rfl, Bool.true_and]
      exact gMatch_nil_atoms r
  · apply git_any_of _ _ gitPattern_f_mem
    rw [cleanCmd_data, norm_clean _ hlow]
    apply gSearch_head
    rw [gMatch_cleanPre]
    rw [gMatch_ch_cons, show (('-' : Char) == '-') = true from rfl, Bool.true_and]
    rw [gMatch_ch_cons, show (('f' : Char) == 'f') = true from rfl, Bool.true_and]
    have h := @gMatch_star_run cs [] lowAZ [.wsOrEnd]
      (fun c hc => hlow c (by simp [hc])) rfl
    rw [List.append_nil] at h
    exact h

/-- Claim C4, witness for the amended theorem: concrete clusters `xdf`
(f and d present, d-before-f order) and `fx` (cluster beginning with `f`)
are both detected. -/
theorem c4_git_clean_witness :
    is_dangerous_git_command (cleanCmd "xdf".data) = true ∧
    is_dangerous_git_command (cleanCmd "fx".data) = true :=
  ⟨c4_git_clean_clusters.1 "xdf".data (by decide) (Or.inl ⟨by decide, by decide⟩),
   c4_git_clean_clusters.1 "fx".data (by decide) (Or.inr ⟨"x".data, rfl⟩)⟩

/-- Claim C1: the rm detector returns the specified verdicts on the spec's
six test vectors — `rm -rf /` ↦ 2, `rm -rf ./build` ↦ 0, `rm -rf *.log` ↦ 0,
`rm -rf ..` ↦ 1, `rm --force --recursive ./build` ↦ 2, `rm -rf` ↦ 2. -/
theorem c1_rm_vectors :
    is_dangerous_rm_command "rm -rf /" = 2 ∧
    is_dangerous_rm_command "rm -rf ./build" = 0 ∧
    is_dangerous_rm_command "rm -rf *.log" = 0 ∧
    is_dangerous_rm_command "rm -rf .." = 1 ∧
    is_dangerous_rm_command "rm --force --recursive ./build" = 2 ∧
    is_dangerous_rm_command "rm -rf" = 2 :=
  ⟨by decide, by decide, by decide, by decide, by decide, by decide⟩

/-- Claim C2: for every `rm` invocation whose flag scan records both the
force and the recursive flag with at least one of them given in long form
(`--force(=…)` / `--recursive(=…)`), the detector returns 2 regardless of
the collected path arguments — the conclusion holds with the paths left
completely unconstrained, so no per-path classification is consulted. -/
theorem c2_rm_long_form (cmd : String) (t0 : List Char) (rest : List (List Char))
    (htok : rmTokens (stripPy cmd.data) = t0 :: rest)
    (hrm : lowerL t0 = "rm".data)
    (hf : (scanRm rest rmScanStart).has_force = true)
    (hr : (scanRm rest rmScanStart).has_recursive = true)
    (hlong : (scanRm rest rmScanStart).used_long_force = true ∨
      (scanRm rest rmScanStart).used_long_recursive = true) :
    is_dangerous_rm_command cmd = 2 := by
  unfold is_dangerous_rm_command
  split
  next hempty =>
    exfalso
    rw [hempty] at htok
    exact List.noConfusion (show ([] : List (List Char)) = t0 :: rest from htok)
  next =>
    split
    next heq =>
      rw [htok] at heq
      exact absurd heq (List.cons_ne_nil t0 rest)
    next t0' rest' heq =>
      rw [htok] at heq
      obtain ⟨rfl, rfl⟩ : t0 = t0' ∧ rest = rest' := by
        injection heq with h1 h2
        exact ⟨h1, h2⟩
      rw [if_pos hrm]
      unfold rmFlagsVerdict
      rcases hlong with h | h <;> simp [hf, hr, h]

/-- Claim C2, witness: `rm --force -r x` uses the long force flag together
with a short recursive flag and is denied outright. -/
theorem c2_rm_long_form_witness :
    is_dangerous_rm_command "rm --force -r x" = 2 :=
  c2_rm_long_form "rm --force -r x" "rm".data ["--force".data, "-r".data, "x".data]
    (by decide) (by decide) (by decide) (by decide) (Or.inl (by decide))

/-- Claim C3: every command whose tokenization (shlex, with whitespace-split
fallback) yields no tokens or a first token whose lowercase form is not `rm`
gets verdict 0 — this includes empty and whitespace-only commands. -/
theorem c3_non_rm (cmd : String) (h : rmFirstTokenNotRm cmd = true) :
    is_dangerous_rm_command cmd = 0 := by
  unfold rmFirstTokenNotRm at h
  unfold is_dangerous_rm_command
  split
  next => rfl
  next =>
    split
    next => rfl
    next t0 rest heq =>
      rw [heq] at h
      have hcond : ¬lowerL t0 = "rm".data := by simpa using h
      rw [if_neg hcond]

/-- Claim C3, witness: a non-`rm` command and a whitespace-only command both
get verdict 0. -/
theorem c3_non_rm_witness :
    is_dangerous_rm_command "git status" = 0 ∧ is_dangerous_rm_command "   " = 0 :=
  ⟨c3_non_rm "git status" (by decide), c3_non_rm "   " (by decide)⟩

/-- Claim C5, counterexample: `default.x.env` contains `.env`, does not end
with `.env.example`, and does not match the claim's pattern
`default(\.*)?\.env$`, so the claim predicts the detector flags it — but the
code's pattern `default(\..*)?\.env$` matches it and `is_env_file_access`
returns `false`. -/
theorem c5_env_counterexample :
    containsSub ".env".data "default.x.env".data = true ∧
    endsWithL ".env.example".data "default.x.env".data = false ∧
    specSearchDefaultEnv "default.x.env".data = false ∧
    is_env_file_access "Read" ⟨"default.x.env", ""⟩ = false :=
  ⟨by decide, by decide, by decide, by decide⟩

/-- The file-path branch of `is_env_file_access`, characterized for any tool
name in the file-tool list. -/
theorem c5_file_branch (tool : String) (ti : ToolInput)
    (h5 : tool ∈ ["Read", "Edit", "MultiEdit", "Write", "Bash"])
    (h4 : tool ∈ ["Read", "Edit", "MultiEdit", "Write"]) :
    is_env_file_access tool ti =
      (if endsWithL ".env.example".data ti.file_path.data then false
       else containsSub ".env".data ti.file_path.data &&
         !searchDefaultEnvEnd ti.file_path.data) := by
  unfold is_env_file_access
  rw [if_pos h5, if_pos h4]
  by_cases h : endsWithL ".env.example".data ti.file_path.data = true
  · rw [if_pos h, if_pos h]
  · rw [if_neg h, if_neg h]
    cases h2 : (containsSub ".env".data ti.file_path.data &&
        !searchDefaultEnvEnd ti.file_path.data) <;> simp [h2]

/-- Claim C5 (amended): for tools `Read`/`Edit`/`MultiEdit`/`Write` the env
detector returns `false` on paths ending in `.env.example` and otherwise
returns `true` exactly when the path contains `.env` and does not match the
code's pattern `default(\..*)?\.env$` (the claim wrote `default(\.*)?\.env$`);
in particular `config/.env.example` and `default.env` are not flagged and
`secrets/.env` is; every tool outside the five-tool list returns `false`
unconditionally. -/
theorem c5_env_detector :
    (∀ (tool : String) (ti : ToolInput),
        tool ∈ ["Read", "Edit", "MultiEdit", "Write"] →
        is_env_file_access tool ti =
          (if endsWithL ".env.example".data ti.file_path.data then false
           else containsSub ".env".data ti.file_path.data &&
             !searchDefaultEnvEnd ti.file_path.data)) ∧
    (∀ (tool : String) (ti : ToolInput),
        tool ∉ ["Read", "Edit", "MultiEdit", "Write", "Bash"] →
        is_env_file_access tool ti = false) ∧
    is_env_file_access "Read" ⟨"config/.env.example", ""⟩ = false ∧
    is_env_file_access "Read" ⟨"secrets/.env", ""⟩ = true ∧
    is_env_file_access "Read" ⟨"default.env", ""⟩ = false := by
  refine ⟨?_, ?_, by decide, by decide, by decide⟩
  · intro tool ti htool
    fin_cases htool <;> exact c5_file_branch _ _ (by decide) (by decide)
  · intro tool ti htool
    unfold is_env_file_access
    rw [if_neg htool]

/-- Claim C5, witness: the characterization applied to `Edit` on
`secrets/.env`, and the unconditional `false` applied to `Grep`. -/
theorem c5_env_detector_witness :
    is_env_file_access "Edit" ⟨"secrets/.env", ""⟩ =
      (if endsWithL ".env.example".data "secrets/.env".data then false
       else containsSub ".env".data "secrets/.env".data &&
         !searchDefaultEnvEnd "secrets/.env".data) ∧
    is_env_file_access "Grep" ⟨"secrets/.env", ""⟩ = false :=
  ⟨c5_env_detector.1 "Edit" ⟨"secrets/.env", ""⟩ (by decide),
   c5_env_detector.2.1 "Grep" ⟨"secrets/.env", ""⟩ (by decide)⟩

/-- Claim C6: `classify_path` is total — every input is mapped to exactly one
of the three classifications (in this embedding the function is total by
construction and its codomain has exactly these three values). -/
theorem c6_classify_total (path : List Char) :
    classify_path path = .safe ∨ classify_path path = .potential ∨
      classify_path path = .dangerous := by
  cases classify_path path
  · exact Or.inl rfl
  · exact Or.inr (Or.inl rfl)
  · exact Or.inr (Or.inr rfl)

/-- Claim C7: the classifiers are deterministic — the verdicts of
`is_dangerous_rm_command`, `is_dangerous_git_command` and `classify_path`
are functions of the input string alone (the embedded definitions consult no
state, so equal inputs give equal verdicts). -/
theorem c7_deterministic (c₁ c₂ : String) (h : c₁ = c₂) :
    is_dangerous_rm_command c₁ = is_dangerous_rm_command c₂ ∧
    is_dangerous_git_command c₁ = is_dangerous_git_command c₂ ∧
    ∀ p₁ p₂ : List Char, p₁ = p₂ → classify_path p₁ = classify_path p₂ := by
  subst h
  exact ⟨rfl, rfl, fun p₁ p₂ hp => by rw [hp]⟩

/-- Claim C7, witness: the determinism statement at `rm -rf /` and path
`/`. -/
theorem c7_deterministic_witness :
    is_dangerous_rm_command "rm -rf /" = is_dangerous_rm_command "rm -rf /" ∧
    is_dangerous_git_command "rm -rf /" = is_dangerous_git_command "rm -rf /" ∧
    classify_path "/".data = classify_path "/".data :=
  ⟨(c7_deterministic "rm -rf /" "rm -rf /" rfl).1,
   (c7_deterministic "rm -rf /" "rm -rf /" rfl).2.1,
   (c7_deterministic "rm -rf /" "rm -rf /" rfl).2.2 "/".data "/".data rfl⟩

/-- Claim C8 (code bug): the session id `c8Sid` — a UUID followed by one
trailing newline — is not in the strict 8-4-4-4-12 hexadecimal form, yet
`validate_session_id` accepts it because Python's `$` matches just before a
trailing newline; with a hooks file present under that id the dispatcher
executes the configured hook instead of printing an empty JSON object, so
its output differs from the `\x7b\x7d` / exit-0 outcome the claim requires. -/
theorem c8_uuid_newline_divergence :
    specUuidForm c8Sid.data = false ∧
    validate_session_id c8Sid = true ∧
    mainOutcome c8Input (.loaded c8Cfg) noRun = ⟨"\x7b\"a\": 1\x7d", "", 0⟩ ∧
    mainOutcome c8Input (.loaded c8Cfg) noRun ≠ ⟨"\x7b\x7d\n", "", 0⟩ :=
  ⟨by decide, by decide, by decide, by decide⟩

/-- Claim C9: a `json` hook configured with `json = \x7b"a": 1\x7d` and
`exitcode = 3` yields exactly the serialized JSON on stdout and exit code 3,
both directly from `execute_json_hook` and through `main` (for every command
runner, which is never consulted); an absent `json` field defaults the
output object to `\x7b\x7d`; an absent or non-integer `exitcode` is coerced
(`"7"` ↦ 7) or defaults to 0 (`null` ↦ 0). -/
theorem c9_json_round_trip :
    execute_json_hook (.ofList [("json", jobj [("a", .num 1)]), ("exitcode", .num 3)]) =
      ("\x7b\"a\": 1\x7d", "", 3) ∧
    (∀ rc, mainOutcome c9Input (.loaded c9Cfg) rc = ⟨"\x7b\"a\": 1\x7d", "", 3⟩) ∧
    (∀ hook : JFields, hook.lookup "json" = none →
        execute_json_hook hook =
          ("\x7b\x7d", "", pyToInt ((hook.lookup "exitcode").getD (.num 0)))) ∧
    execute_json_hook (.ofList [("json", jobj []), ("exitcode", .str "7")]) =
      ("\x7b\x7d", "", 7) ∧
    execute_json_hook (.ofList [("json", jobj [])]) = ("\x7b\x7d", "", 0) ∧
    execute_json_hook (.ofList [("json", jobj []), ("exitcode", .null)]) =
      ("\x7b\x7d", "", 0) := by
  refine ⟨by decide, fun rc => rfl, ?_, by decide, by decide, by decide⟩
  intro hook h
  unfold execute_json_hook
  rw [h]
  rfl

/-- Claim C9, witness: a hook with no `json` field and `exitcode = 5` prints
`\x7b\x7d` and exits 5. -/
theorem c9_json_round_trip_witness :
    execute_json_hook (.ofList [("exitcode", .num 5)]) = ("\x7b\x7d", "", 5) :=
  (c9_json_round_trip.2.2.1 (.ofList [("exitcode", .num 5)]) rfl).trans (by decide)

/-- Claim C10: for a `Bash` invocation that both triggers the env-file
detector and is a dangerous rm (verdict 2) or dangerous git command, the
permission hook emits the `ask` env-file confirmation, not `deny` — the env
check is evaluated before the rm and git checks. -/
theorem c10_env_precedence (fp command : String) (autoAllow : Bool)
    (henv : is_env_file_access "Bash" ⟨fp, command⟩ = true)
    (hdanger : is_dangerous_rm_command command = 2 ∨
      is_dangerous_git_command command = true) :
    blockDecision "Bash" ⟨fp, command⟩ autoAllow = .ask envAskReason := by
  unfold blockDecision
  rw [if_pos henv]

/-- Claim C10, witness: `rm -rf /etc/.env` triggers the env detector and has
rm verdict 2, and the hook asks instead of denying. -/
theorem c10_env_precedence_witness :
    blockDecision "Bash" ⟨"", "rm -rf /etc/.env"⟩ false = .ask envAskReason :=
  c10_env_precedence "" "rm -rf /etc/.env" false (by decide) (Or.inl (by decide))

